import Mathlib

/-!
Verification development for the odordb-viewer ingestion / query core
(src/ingest.py, src/query.py, src/schema.py, src/app.py).

The Python code is shallowly embedded: pandas cells become an inductive
`Cell`, Python floats become `PyFloat` (finite values idealised as exact
rationals), tables become association-list rows, the SQLite store becomes
explicit lists of odor and fact records, and each Python function becomes a
Lean function of the same name translated line by line from the source.
-/

namespace OdorDB

/-! ### String primitives

Python's `str.strip` / `str.lower` / `startswith` / `endswith` / `sorted`
and string comparison, modelled directly on character lists. -/

/-- Python `str.strip()`: drop leading and trailing whitespace. -/
def pyStrip (s : String) : String :=
  ⟨((s.data.dropWhile Char.isWhitespace).reverse.dropWhile
      Char.isWhitespace).reverse⟩

/-- Python `str.lower()` (ASCII case folding). -/
def pyLower (s : String) : String := ⟨s.data.map Char.toLower⟩

/-- Python `str.startswith`. -/
def strStartsWith (s p : String) : Bool := p.data.isPrefixOf s.data

/-- Python `str.endswith`. -/
def strEndsWith (s p : String) : Bool :=
  p.data.reverse.isPrefixOf s.data.reverse

/-- Lexicographic comparison of strings by code point, as Python compares
strings. -/
def charListLe : List Char → List Char → Bool
  | [], _ => true
  | _ :: _, [] => false
  | a :: as, b :: bs =>
      if a < b then true else if b < a then false else charListLe as bs

def strLeB (a b : String) : Bool := charListLe a.data b.data

/-- Sorted insertion for Python's `sorted`. -/
def insertLe {α : Type} (le : α → α → Bool) (a : α) : List α → List α
  | [] => [a]
  | b :: l => if le a b then a :: b :: l else b :: insertLe le a l

/-- Python `sorted` (insertion sort; the claims do not depend on
stability). -/
def sortLe {α : Type} (le : α → α → Bool) : List α → List α
  | [] => []
  | a :: l => insertLe le a (sortLe le l)

/-- Python float values as produced by `float(...)`: a finite value
(idealised as an exact rational), a signed infinity, and NaN. -/
inductive PyFloat where
  | fin (q : ℚ)
  | inf (pos : Bool)
  | nan
  deriving DecidableEq

/-- One cell of a pandas table: a missing value (`None`/omitted), a number
(int or float), or a string. -/
inductive Cell where
  | null
  | num (x : PyFloat)
  | str (s : String)
  deriving DecidableEq

/-- Rendering of a Python float by `str(...)`; the rendering of finite
values is idealised as the rational literal (no claim inspects it). -/
def renderNum : PyFloat → String
  | .fin q => toString q
  | .inf b => if b then "inf" else "-inf"
  | .nan => "nan"

/-- Python `str(...)` applied to a cell value. -/
def pyStr : Cell → String
  | .null => "None"
  | .num x => renderNum x
  | .str s => s

/-- `_safe_str` (src/ingest.py:32-43): `None`, float NaN and pandas NA map to
`none`; anything else is stringified and stripped, an empty result mapping
to `none`. -/
def safe_str : Cell → Option String
  | .null => none
  | .num .nan => none
  | .num x => let t := pyStrip (renderNum x); if t = "" then none else some t
  | .str s => let t := pyStrip s; if t = "" then none else some t

/-- A table row: association list from column label to cell
(a pandas `Series` with its index). -/
def Row := List (String × Cell)

instance : DecidableEq Row := by unfold Row; infer_instance

/-- `col in row.index` / `row[col]`: the cell stored under a label. -/
def rowGet (row : Row) (col : String) : Option Cell :=
  (row.find? (fun p => p.1 == col)).map (·.2)

/-- `row[col]` where the label is known to be present; absent labels are
treated as a missing value (that branch is dead for well-formed tables). -/
def rowCell (row : Row) (col : String) : Cell :=
  (rowGet row col).getD .null

/-- `_pick_first_present` (src/ingest.py:46-52): first candidate column that
is present in the row and whose `_safe_str` is non-None. -/
def pick_first_present (row : Row) : List String → Option String
  | [] => none
  | c :: rest =>
      match rowGet row c with
      | none => pick_first_present row rest
      | some cell =>
          match safe_str cell with
          | some v => some v
          | none => pick_first_present row rest

/-- A pandas data frame: the column labels and the rows. -/
structure Table where
  cols : List String
  rows : List Row
  deriving DecidableEq

/-- `_find_stimulus_column` (src/ingest.py:55-59): first column whose
stripped, lowercased label is `"stimulus"`. -/
def find_stimulus_column (t : Table) : Option String :=
  t.cols.find? (fun c => pyLower (pyStrip c) == "stimulus")

def CID_CANDIDATES_STIM : List String :=
  ["CID", "cid", "PubChemCID", "pubchem_cid", "new_CID"]

def CAS_CANDIDATES : List String :=
  ["CAS", "cas", "CASNo", "CASNo.", "cas_number", "C.A.S."]

def NAME_CANDIDATES : List String :=
  ["name", "Name", "OdorName", "Odorant name", "Odorant", "OdorantName",
   "ChemicalName"]

def SMILES_CANDIDATES : List String :=
  ["IsomericSMILES", "SMILES", "CanonicalSMILES"]

/-- The `Identity` dataclass (src/ingest.py:19-27). -/
structure Identity where
  unified_odor_id : String
  slug : String
  stimulus : String
  name : Option String := none
  cid : Option String := none
  cas : Option String := none
  smiles : Option String := none
  deriving DecidableEq

/-- CID resolution inside `_identity_from_rows` (src/ingest.py:150-154):
the molecule row's `CID` field first, then the stimulus-row synonym list. -/
def resolveCid (stim_row mol_row : Option Row) : Option String :=
  let fromMol :=
    match mol_row with
    | some mr =>
        match rowGet mr "CID" with
        | some cell => safe_str cell
        | none => none
    | none => none
  match fromMol with
  | some c => some c
  | none =>
      match stim_row with
      | some sr => pick_first_present sr CID_CANDIDATES_STIM
      | none => none

/-- CAS resolution (src/ingest.py:156-160): stimulus row first, then
molecule row. -/
def resolveCas (stim_row mol_row : Option Row) : Option String :=
  match stim_row.bind (fun sr => pick_first_present sr CAS_CANDIDATES) with
  | some c => some c
  | none => mol_row.bind (fun mr => pick_first_present mr CAS_CANDIDATES)

/-- Name resolution (src/ingest.py:162-166): molecule row first, then
stimulus row. -/
def resolveName (stim_row mol_row : Option Row) : Option String :=
  match mol_row.bind (fun mr => pick_first_present mr NAME_CANDIDATES) with
  | some c => some c
  | none => stim_row.bind (fun sr => pick_first_present sr NAME_CANDIDATES)

/-- SMILES resolution (src/ingest.py:168-172): molecule row first, then
stimulus row. -/
def resolveSmiles (stim_row mol_row : Option Row) : Option String :=
  match mol_row.bind (fun mr => pick_first_present mr SMILES_CANDIDATES) with
  | some c => some c
  | none => stim_row.bind (fun sr => pick_first_present sr SMILES_CANDIDATES)

/-- Python `a or b` for an optional string `a`: `b` when `a` is None or
empty. -/
def pyOrStr (a : Option String) (b : String) : String :=
  match a with
  | some s => if s = "" then b else s
  | none => b

/-- `_identity_from_rows` (src/ingest.py:138-189). -/
def identity_from_rows (slug stimulus : String)
    (stim_row mol_row : Option Row) : Identity :=
  let cid := resolveCid stim_row mol_row
  let cas := resolveCas stim_row mol_row
  let nm := resolveName stim_row mol_row
  let smiles := resolveSmiles stim_row mol_row
  let uid :=
    match cid with
    | some c => "CID:" ++ c
    | none =>
        match cas with
        | some c => "CAS:" ++ c
        | none => "OID:" ++ slug ++ ":" ++ stimulus
  { unified_odor_id := uid, slug := slug, stimulus := stimulus,
    name := some (pyOrStr nm stimulus), cid := cid, cas := cas,
    smiles := smiles }

/-! ### The SQLite store (src/schema.py) -/

/-- One row of the `odors` table. -/
structure OdorRec where
  unified_odor_id : String
  slug_first : String
  stimulus_first : String
  name : Option String
  cid : Option String
  cas : Option String
  smiles : Option String
  deriving DecidableEq

/-- One row of the `odor_facts` table (the autoincrement id is the list
position). -/
structure Fact where
  unified_odor_id : String
  slug : String
  file : String
  column : String
  value_text : Option String
  value_num : Option PyFloat
  deriving DecidableEq

/-- The database state: both tables, facts in insertion order. -/
structure Store where
  odors : List OdorRec
  facts : List Fact
  deriving DecidableEq

def emptyStore : Store := { odors := [], facts := [] }

/-- SQLite `TRIM`: strips leading and trailing space characters (0x20)
only. -/
def sqliteTrim (s : String) : String :=
  ⟨((s.data.dropWhile (· == ' ')).reverse.dropWhile (· == ' ')).reverse⟩

/-- One field update of `_upsert_odor` (src/ingest.py:211-226):
`UPDATE odors SET col = v WHERE unified_odor_id = ? AND (col IS NULL OR
TRIM(col) = '')`, skipped when the new value is None. -/
def applyFill (v cur : Option String) : Option String :=
  match v with
  | none => cur
  | some val =>
      match cur with
      | none => some val
      | some c => if sqliteTrim c = "" then some val else some c

/-- The `odors` row inserted by `INSERT OR IGNORE` (src/ingest.py:196-210). -/
def identRec (ident : Identity) : OdorRec :=
  { unified_odor_id := ident.unified_odor_id, slug_first := ident.slug,
    stimulus_first := ident.stimulus, name := ident.name, cid := ident.cid,
    cas := ident.cas, smiles := ident.smiles }

/-- The effect of the four fill updates on one stored row. -/
def updateRec (ident : Identity) (r : OdorRec) : OdorRec :=
  if r.unified_odor_id = ident.unified_odor_id then
    { r with name := applyFill ident.name r.name,
             cid := applyFill ident.cid r.cid,
             cas := applyFill ident.cas r.cas,
             smiles := applyFill ident.smiles r.smiles }
  else r

/-- `_upsert_odor` (src/ingest.py:194-226): `INSERT OR IGNORE` of the
identity row, then the four fill-if-null-or-blank updates. -/
def upsert_odor (tbl : List OdorRec) (ident : Identity) : List OdorRec :=
  let tbl1 :=
    if tbl.any (fun r => r.unified_odor_id == ident.unified_odor_id) then tbl
    else tbl ++ [identRec ident]
  tbl1.map (updateRec ident)

/-- The four descriptive fields of an odor record. -/
inductive DescField where
  | name | cid | cas | smiles
  deriving DecidableEq

def OdorRec.descGet (r : OdorRec) : DescField → Option String
  | .name => r.name
  | .cid => r.cid
  | .cas => r.cas
  | .smiles => r.smiles

def Identity.descGet (i : Identity) : DescField → Option String
  | .name => i.name
  | .cid => i.cid
  | .cas => i.cas
  | .smiles => i.smiles

/-! ### Python `float(...)` string parsing -/

def isDigitCh (c : Char) : Bool := '0' ≤ c && c ≤ '9'

/-- Continue a Python digitpart after its first digit: consume
`(digit | "_" digit)*`, returning the accumulated digits (underscores
removed, reversed accumulator) and the unconsumed rest. -/
def digitPartAux (acc : List Char) : List Char → (List Char × List Char)
  | [] => (acc.reverse, [])
  | c :: cs =>
      if isDigitCh c then digitPartAux (c :: acc) cs
      else if c == '_' then
        match cs with
        | d :: cs2 =>
            if isDigitCh d then digitPartAux (d :: acc) cs2
            else (acc.reverse, c :: cs)
        | [] => (acc.reverse, [c])
      else (acc.reverse, c :: cs)

/-- A Python digitpart (`digit (["_"] digit)*`): `none` when there is no
leading digit. -/
def takeDigitPart : List Char → Option (List Char × List Char)
  | [] => none
  | c :: cs => if isDigitCh c then some (digitPartAux [c] cs) else none

def digitsToNat (ds : List Char) : Nat :=
  ds.foldl (fun a c => a * 10 + (c.toNat - 48)) 0

/-- The exponent part after `e`/`E`: optional sign then a digitpart that
must consume the whole rest. -/
def parseExpAfterE (l : List Char) : Option Int :=
  let sgnRest : Int × List Char :=
    match l with
    | '+' :: r => (1, r)
    | '-' :: r => (-1, r)
    | r => (1, r)
  match takeDigitPart sgnRest.2 with
  | some (d, []) => some (sgnRest.1 * (digitsToNat d : Int))
  | _ => none

def mantissaQ (ip fp : List Char) (ex : Int) : ℚ :=
  ((digitsToNat ip : ℚ) + (digitsToNat fp : ℚ) / ((10 : ℚ) ^ fp.length))
    * (10 : ℚ) ^ ex

/-- An unsigned Python float literal: `digitpart ["." [digitpart]]` or
`"." digitpart`, followed by an optional exponent, consuming everything. -/
def parseNumBody (l : List Char) : Option ℚ :=
  let ipRest :=
    match takeDigitPart l with
    | some (d, r) => (d, r)
    | none => (([] : List Char), l)
  let fpRest :=
    match ipRest.2 with
    | '.' :: r =>
        match takeDigitPart r with
        | some (d, r2) => (d, r2)
        | none => (([] : List Char), r)
    | _ => (([] : List Char), ipRest.2)
  if ipRest.1 = [] ∧ fpRest.1 = [] then none
  else
    match fpRest.2 with
    | [] => some (mantissaQ ipRest.1 fpRest.1 0)
    | e :: r =>
        if e == 'e' || e == 'E' then
          match parseExpAfterE r with
          | some ex => some (mantissaQ ipRest.1 fpRest.1 ex)
          | none => none
        else none

/-- Python `float(text)` on a string: optional sign, then a case-insensitive
`inf`/`infinity`/`nan` literal or a number; `none` when `float` raises.
Surrounding whitespace is stripped (as `float` itself does). -/
def parseFloat (s : String) : Option PyFloat :=
  let cs := (pyStrip s).data
  let negBody : Bool × List Char :=
    match cs with
    | '+' :: r => (false, r)
    | '-' :: r => (true, r)
    | r => (false, r)
  let lowered := negBody.2.map Char.toLower
  if lowered = "inf".data ∨ lowered = "infinity".data then
    some (.inf (!negBody.1))
  else if lowered = "nan".data then some .nan
  else
    match parseNumBody negBody.2 with
    | some q => some (.fin (if negBody.1 then -q else q))
    | none => none

/-! ### Fact insertion (src/ingest.py:229-292) -/

/-- The value-typing logic of `_insert_fact` (src/ingest.py:229-274):
`none` when no row is written, otherwise the `(value_text, value_num)`
pair of the written row. None and float NaN are dropped; numbers are
stored numerically; strings are stripped (dropped when empty) and stored
numerically exactly when `float(text)` succeeds with a non-NaN result. -/
def insertFactValue : Cell → Option (Option String × Option PyFloat)
  | .null => none
  | .num .nan => none
  | .num x => some (none, some x)
  | .str s =>
      match safe_str (.str s) with
      | none => none
      | some text =>
          match parseFloat text with
          | some .nan => some (some text, none)
          | some x => some (none, some x)
          | none => some (some text, none)

/-- `_insert_fact` (src/ingest.py:229-274) as a store transformer. -/
def insert_fact (st : Store) (ident : Identity) (slug fname col : String)
    (value : Cell) : Store :=
  match insertFactValue value with
  | none => st
  | some tn =>
      { st with facts := st.facts ++
          [{ unified_odor_id := ident.unified_odor_id, slug := slug,
             file := fname, column := col, value_text := tn.1,
             value_num := tn.2 }] }

/-- `_insert_row_as_facts` (src/ingest.py:277-292). -/
def insert_row_as_facts (st : Store) (ident : Identity) (slug fname : String)
    (row : Option Row) (skipCols : List String) : Store :=
  match row with
  | none => st
  | some r =>
      let skip := skipCols.map (fun c => pyLower (pyStrip c))
      r.foldl (fun s p =>
        if skip.contains (pyLower (pyStrip p.1)) then s
        else insert_fact s ident slug fname p.1 p.2) st

/-! ### Dataset loading and ingestion (src/ingest.py:62-119, 296-397) -/

/-- A dataset folder. A file entry is `(name, none)` when the file cannot be
parsed and `(name, some table)` when it parses; `stimuli`/`molecules` are
`none` when absent, `some none` when unreadable. -/
structure Dataset where
  slug : String
  stimuli : Option (Option Table)
  molecules : Option (Option Table)
  files : List (String × Option Table)

/-- Stringify the cells of one column (`df[col] = df[col].astype(str)`). -/
def mapRowStr (col : String) (r : Row) : Row :=
  r.map (fun p => if p.1 == col then (p.1, Cell.str (pyStr p.2)) else p)

/-- `_load_stimuli` (src/ingest.py:64-79): absent, unreadable or empty files
and files without a recognisable stimulus column yield `none`. -/
def load_stimuli (f : Option (Option Table)) : Option Table :=
  match f with
  | none => none
  | some none => none
  | some (some t) =>
      if t.rows.isEmpty then none
      else
        match find_stimulus_column t with
        | none => none
        | some _ => some t

/-- `_load_molecules` (src/ingest.py:82-97): additionally requires a `CID`
column, which is converted with `astype(str)`. -/
def load_molecules (f : Option (Option Table)) : Option Table :=
  match f with
  | none => none
  | some none => none
  | some (some t) =>
      if t.rows.isEmpty then none
      else if t.cols.contains "CID" then
        some { t with rows := t.rows.map (mapRowStr "CID") }
      else none

/-- `_get_stimulus_row` (src/ingest.py:100-109): first row whose
stringified stimulus-column value equals the label. -/
def get_stimulus_row (stim_df : Option Table) (stimulus_value : String) :
    Option Row :=
  match stim_df with
  | none => none
  | some t =>
      match find_stimulus_column t with
      | none => none
      | some stim_col =>
          t.rows.find? (fun r => pyStr (rowCell r stim_col) == stimulus_value)

/-- `_get_molecule_row` (src/ingest.py:112-119): first row whose stringified
`CID` equals the resolved CID. -/
def get_molecule_row (mol_df : Option Table) (cid : Option String) :
    Option Row :=
  match mol_df, cid with
  | some t, some c => t.rows.find? (fun r => pyStr (rowCell r "CID") == c)
  | _, _ => none

/-- Datasets with more rows than this (summed across behavior*.csv) are
skipped (src/ingest.py:16). -/
def MAX_ROWS_PER_DATASET : Nat := 5000

/-- `fname.lower().startswith("behavior") and fname.lower().endswith(".csv")`. -/
def isBehaviorCsv (name : String) : Bool :=
  strStartsWith (pyLower name) "behavior" && strEndsWith (pyLower name) ".csv"

/-- `_count_behavior_rows` (src/ingest.py:296-308): total rows across all
readable behavior*.csv files. -/
def count_behavior_rows (ds : Dataset) : Nat :=
  ds.files.foldl (fun total f =>
    if isBehaviorCsv f.1 then
      match f.2 with
      | some t => total + t.rows.length
      | none => total
    else total) 0

/-- The mutable state of one `ingest_dataset` run: the store plus the
per-run identity cache keyed by raw stimulus label (src/ingest.py:339). -/
structure RunState where
  store : Store
  cache : List (String × Identity)
  deriving DecidableEq

def lookupCache (cache : List (String × Identity)) (key : String) :
    Option Identity :=
  (cache.find? (fun p => p.1 == key)).map (·.2)

/-- The cache-miss branch of the measurement-row loop
(src/ingest.py:374-385): resolve the stimulus and molecule rows, build the
identity, upsert the odor row, and write the stimulus/molecule enrichment
facts (tagged `"stimuli.csv"` / `"molecules.csv"`); the identity is added
to the run cache under the raw stimulus label. -/
def resolveAndEnrich (slug : String) (stim_df mol_df : Option Table)
    (stim_col : String) (st : RunState) (stim_value : String) :
    Identity × RunState :=
  let stim_row := get_stimulus_row stim_df stim_value
  let cid_from_stim :=
    stim_row.bind (fun sr => pick_first_present sr CID_CANDIDATES_STIM)
  let mol_row := get_molecule_row mol_df cid_from_stim
  let ident := identity_from_rows slug stim_value stim_row mol_row
  let s1 := { st.store with odors := upsert_odor st.store.odors ident }
  let s2 := insert_row_as_facts s1 ident slug "stimuli.csv" stim_row [stim_col]
  let s3 := insert_row_as_facts s2 ident slug "molecules.csv" mol_row ["CID"]
  (ident, { store := s3, cache := (stim_value, ident) :: st.cache })

/-- The inner measurement loop (src/ingest.py:387-391): every column of the
current row except the stimulus column becomes a fact tagged with the
measurement file name. -/
def insertMeasurementFacts (ident : Identity) (slug fname stim_col : String)
    (cols : List String) (row : Row) (s : Store) : Store :=
  cols.foldl (fun s col =>
    if col == stim_col then s
    else insert_fact s ident slug fname col (rowCell row col)) s

/-- The body of the measurement-row loop (src/ingest.py:367-391): resolve or
reuse the cached identity (on a miss: upsert the odor and write the
stimulus/molecule enrichment facts), then write every non-stimulus column
of the row as a fact tagged with the measurement file name. -/
def processRow (slug : String) (stim_df mol_df : Option Table)
    (stim_col fname : String) (cols : List String) (st : RunState)
    (row : Row) : RunState :=
  match safe_str (rowCell row stim_col) with
  | none => st
  | some stim_value =>
      let idst : Identity × RunState :=
        match lookupCache st.cache stim_value with
        | some ident => (ident, st)
        | none => resolveAndEnrich slug stim_df mol_df stim_col st stim_value
      { store := insertMeasurementFacts idst.1 slug fname stim_col cols row
          idst.2.store,
        cache := idst.2.cache }

/-- The per-file part of `ingest_dataset` (src/ingest.py:341-391): skip
non-behavior, unreadable, empty and stimulus-column-less files; stringify
the stimulus column; then process each row. -/
def processFile (slug : String) (stim_df mol_df : Option Table)
    (st : RunState) (f : String × Option Table) : RunState :=
  if isBehaviorCsv f.1 then
    match f.2 with
    | none => st
    | some t =>
        if t.rows.isEmpty then st
        else
          match find_stimulus_column t with
          | none => st
          | some stim_col =>
              (t.rows.map (mapRowStr stim_col)).foldl
                (processRow slug stim_df mol_df stim_col f.1 t.cols) st
  else st

/-- `ingest_dataset` (src/ingest.py:313-397): the row-count gate, then the
per-file loop over the name-sorted directory listing. -/
def ingest_dataset (store : Store) (ds : Dataset) : Store :=
  if count_behavior_rows ds > MAX_ROWS_PER_DATASET then store
  else
    let stim_df := load_stimuli ds.stimuli
    let mol_df := load_molecules ds.molecules
    let sortedFiles := sortLe (fun a b => strLeB a.1 b.1) ds.files
    (sortedFiles.foldl (processFile ds.slug stim_df mol_df)
      { store := store, cache := [] }).store

/-! ### Query side (src/query.py) -/

def asciiLowerChar (c : Char) : Char :=
  if 65 ≤ c.toNat ∧ c.toNat ≤ 90 then Char.ofNat (c.toNat + 32) else c

/-- SQLite `LOWER` (ASCII-only case folding). -/
def sqliteLower (s : String) : String := ⟨s.data.map asciiLowerChar⟩

/-- `%` in a LIKE pattern: try the rest of the pattern at every suffix. -/
def likeStar (f : List Char → Bool) : List Char → Bool
  | [] => f []
  | c :: s => f (c :: s) || likeStar f s

/-- SQLite `LIKE` matching. The query lowers both operands first, so
literal characters compare by plain equality here. -/
def likeMatch : List Char → List Char → Bool
  | [], s => s.isEmpty
  | p :: ps, s =>
      if p == '%' then likeStar (likeMatch ps) s
      else
        match s with
        | [] => false
        | c :: s2 => (if p == '_' then true else p == c) && likeMatch ps s2

/-- The `AND f.slug = ?` clause, added only when `dataset` is truthy
(src/query.py:153-155). -/
def datasetOk (dataset : Option String) (f : Fact) : Bool :=
  match dataset with
  | none => true
  | some d => if d = "" then true else f.slug == d

/-- The WHERE clause of `descriptor_search` (src/query.py:144-155) applied
to one fact: `LOWER(column) LIKE '%descriptor%' AND
COALESCE(LOWER(value_text), '') LIKE LOWER('%' || trim(text) || '%')`. -/
def factMatches (text : String) (dataset : Option String) (f : Fact) : Bool :=
  likeMatch "%descriptor%".data (sqliteLower f.column).data
    && likeMatch (sqliteLower ("%" ++ pyStrip text ++ "%")).data
        (sqliteLower (f.value_text.getD "")).data
    && datasetOk dataset f

/-- `descriptor_search` (src/query.py:130-175). The SQL
`SELECT DISTINCT o.* FROM odors o JOIN odor_facts f ON ... WHERE φ(f)`
is modelled as a filter of the odors table by existence of a matching fact,
deduplicated; `ORDER BY` and the optional `LIMIT` are not modelled (the
claim concerns the returned set). -/
def descriptor_search (store : Store) (text : String)
    (dataset : Option String) : List OdorRec :=
  (store.odors.filter (fun o =>
    store.facts.any (fun f =>
      f.unified_odor_id == o.unified_odor_id && factMatches text dataset f))).dedup

/-! ### The wide-view aggregation (src/app.py:313-331) -/

/-- The effective value of one fact in the details view
(`get_odor_facts`, src/query.py:85-103): the text value if present, else
the numeric value, else null; floats idealised as exact rationals. -/
inductive PVal where
  | text (s : String)
  | num (q : ℚ)
  | null
  deriving DecidableEq

/-- Python `str(...)` on an effective value. -/
def pvalStr : PVal → String
  | .text s => s
  | .num q => toString q
  | .null => "None"

def isNumV : PVal → Bool
  | .num _ => true
  | _ => false

def numOf : PVal → Option ℚ
  | .num q => some q
  | _ => none

/-- The per-group aggregation of the optional wide view
(src/app.py:316-322): the arithmetic mean when every value of the group is
numeric, otherwise the sorted, de-duplicated, semicolon-joined stringified
non-null values (`"; ".join(sorted(set(text_vals)))`). -/
def aggregate (vals : List PVal) : Sum ℚ String :=
  let numeric := vals.filterMap numOf
  if numeric ≠ [] ∧ numeric.length = vals.length then
    Sum.inl (numeric.sum / (numeric.length : ℚ))
  else
    Sum.inr ("; ".intercalate
      (sortLe strLeB ((vals.filter (fun v => v ≠ PVal.null)).map pvalStr).dedup))

/-! ## General lemmas -/

/-- An invariant preserved by every step is preserved by a left fold. -/
theorem foldl_preserve {α σ : Type} (g : σ → α → σ) (Inv : σ → Prop)
    (hg : ∀ s a, Inv s → Inv (g s a)) :
    ∀ (l : List α) (s : σ), Inv s → Inv (l.foldl g s) := by
  intro l
  induction l with
  | nil => exact fun s h => h
  | cons a l ih => exact fun s h => ih _ (hg s a h)

/-- Two OID keys built with the same stimulus label agree only when the
slugs agree. -/
theorem oid_slug_inj {s1 s2 t : String}
    (h : "OID:" ++ s1 ++ ":" ++ t = "OID:" ++ s2 ++ ":" ++ t) : s1 = s2 := by
  have hd := congrArg String.data h
  simp only [String.data_append, List.append_assoc] at hd
  exact String.ext (List.append_cancel_right (List.append_cancel_left hd))

theorem identity_cid_eq (slug stim : String) (sr mr : Option Row) :
    (identity_from_rows slug stim sr mr).cid = resolveCid sr mr := rfl

theorem identity_cas_eq (slug stim : String) (sr mr : Option Row) :
    (identity_from_rows slug stim sr mr).cas = resolveCas sr mr := rfl

theorem identity_uid_of_cid (slug stim : String) (sr mr : Option Row)
    (c : String) (h : resolveCid sr mr = some c) :
    (identity_from_rows slug stim sr mr).unified_odor_id = "CID:" ++ c := by
  simp only [identity_from_rows, h]

theorem identity_uid_of_oid (slug stim : String) (sr mr : Option Row)
    (h1 : resolveCid sr mr = none) (h2 : resolveCas sr mr = none) :
    (identity_from_rows slug stim sr mr).unified_odor_id =
      "OID:" ++ slug ++ ":" ++ stim := by
  simp only [identity_from_rows, h1, h2]

/-! ## C1 — identity key priority and merging -/

/-- C1 (amended). The unified key follows the strict priority
CID > CAS > OID; two resolutions sharing a CID produce the same key
regardless of dataset; and two OID-fallback resolutions with the same raw
stimulus label never produce the same key for distinct slugs. (The
original claim asserted the no-merge property for arbitrary labels; see
`C1_counterexample`: with colons inside slugs or labels the concatenated
OID keys can coincide across distinct slugs.) -/
theorem C1_identity_key (slug1 stim1 slug2 stim2 : String)
    (sr1 mr1 sr2 mr2 : Option Row) :
    ((identity_from_rows slug1 stim1 sr1 mr1).unified_odor_id =
      match resolveCid sr1 mr1 with
      | some c => "CID:" ++ c
      | none =>
          match resolveCas sr1 mr1 with
          | some c => "CAS:" ++ c
          | none => "OID:" ++ slug1 ++ ":" ++ stim1)
    ∧ (∀ c : String, (identity_from_rows slug1 stim1 sr1 mr1).cid = some c →
        (identity_from_rows slug2 stim2 sr2 mr2).cid = some c →
        (identity_from_rows slug1 stim1 sr1 mr1).unified_odor_id =
          (identity_from_rows slug2 stim2 sr2 mr2).unified_odor_id)
    ∧ ((identity_from_rows slug1 stim1 sr1 mr1).cid = none →
        (identity_from_rows slug1 stim1 sr1 mr1).cas = none →
        (identity_from_rows slug2 stim2 sr2 mr2).cid = none →
        (identity_from_rows slug2 stim2 sr2 mr2).cas = none →
        stim1 = stim2 → slug1 ≠ slug2 →
        (identity_from_rows slug1 stim1 sr1 mr1).unified_odor_id ≠
          (identity_from_rows slug2 stim2 sr2 mr2).unified_odor_id) := by
  refine ⟨rfl, ?_, ?_⟩
  · intro c h1 h2
    rw [identity_cid_eq] at h1 h2
    rw [identity_uid_of_cid slug1 stim1 sr1 mr1 c h1,
      identity_uid_of_cid slug2 stim2 sr2 mr2 c h2]
  · intro h1 h2 h3 h4 hstim hslug
    rw [identity_cid_eq] at h1 h3
    rw [identity_cas_eq] at h2 h4
    rw [identity_uid_of_oid slug1 stim1 sr1 mr1 h1 h2,
      identity_uid_of_oid slug2 stim2 sr2 mr2 h3 h4, hstim]
    intro he
    exact hslug (oid_slug_inj he)

/-- C1 counterexample to the claim as stated: with neither CID nor CAS,
slug `"a"` with label `"b:c"` and the distinct slug `"a:b"` with label
`"c"` both derive the key `"OID:a:b:c"`, so the two records merge across
distinct slugs. -/
theorem C1_counterexample :
    (identity_from_rows "a" "b:c" none none).cid = none
    ∧ (identity_from_rows "a" "b:c" none none).cas = none
    ∧ (identity_from_rows "a:b" "c" none none).cid = none
    ∧ (identity_from_rows "a:b" "c" none none).cas = none
    ∧ ("a" : String) ≠ "a:b"
    ∧ (identity_from_rows "a" "b:c" none none).unified_odor_id =
        (identity_from_rows "a:b" "c" none none).unified_odor_id := by
  exact ⟨rfl, rfl, rfl, rfl, by decide, by decide⟩

/-- A stimulus row carrying a CID, used to instantiate `C1_identity_key`. -/
def srCID : Row := [("CID", Cell.str "7410")]

/-- C1 witness: two datasets resolving the same CID derive the same key. -/
theorem C1_witness :
    (identity_from_rows "d1" "x" (some srCID) none).unified_odor_id =
      (identity_from_rows "d2" "y" (some srCID) none).unified_odor_id :=
  (C1_identity_key "d1" "x" "d2" "y" (some srCID) none (some srCID)
    none).2.1 "7410" (by decide) (by decide)

/-! ## C2 — upserts fill, never replace -/

/-- The record updated by the four fill statements reads, on each
descriptive field, as `applyFill` of the identity's value over the stored
value. -/
theorem updateRec_descGet_eq (ident : Identity) (r : OdorRec)
    (f : DescField) (h : r.unified_odor_id = ident.unified_odor_id) :
    (updateRec ident r).descGet f =
      applyFill (ident.descGet f) (r.descGet f) := by
  unfold updateRec
  rw [if_pos h]
  cases f <;> rfl

/-- One fill step either keeps the stored field or fills a null/blank field
with the identity's non-null value. -/
theorem applyFill_cases (v cur : Option String) :
    applyFill v cur = cur
    ∨ ((cur = none ∨ sqliteTrim (cur.getD "") = "")
        ∧ applyFill v cur = v ∧ v.isSome = true) := by
  cases v with
  | none => left; rfl
  | some val =>
      cases cur with
      | none => right; exact ⟨Or.inl rfl, rfl, rfl⟩
      | some c =>
          by_cases ht : sqliteTrim c = ""
          · right
            exact ⟨Or.inr (by simpa using ht), by simp [applyFill, ht], rfl⟩
          · left; simp [applyFill, ht]

/-- C2. Over any store state, an identity upsert never replaces a stored
descriptive field (name, cid, cas, smiles) that is non-null and non-blank:
each field of each pre-existing row is either left unchanged, or was
null/blank (SQLite `TRIM`) and is filled with the identity's non-null
value. Applied once per upsert, this covers every sequence of upserts. -/
theorem C2_fill_only (tbl : List OdorRec) (ident : Identity) (i : Nat)
    (f : DescField) (h : i < tbl.length) :
    ((upsert_odor tbl ident)[i]?.map (fun r => r.descGet f) =
        some ((tbl.get ⟨i, h⟩).descGet f))
    ∨ (((tbl.get ⟨i, h⟩).descGet f = none
          ∨ sqliteTrim (((tbl.get ⟨i, h⟩).descGet f).getD "") = "")
        ∧ (upsert_odor tbl ident)[i]?.map (fun r => r.descGet f) =
            some (ident.descGet f)
        ∧ (ident.descGet f).isSome = true) := by
  have hidx : (upsert_odor tbl ident)[i]? =
      some (updateRec ident (tbl.get ⟨i, h⟩)) := by
    unfold upsert_odor
    split
    · rw [List.getElem?_map, List.getElem?_eq_getElem h]
      simp
    · rw [List.getElem?_map, List.getElem?_append_left h,
        List.getElem?_eq_getElem h]
      simp
  rw [hidx]
  by_cases huid : (tbl.get ⟨i, h⟩).unified_odor_id = ident.unified_odor_id
  · simp only [Option.map_some']
    rw [updateRec_descGet_eq ident _ f huid]
    rcases applyFill_cases (ident.descGet f) ((tbl.get ⟨i, h⟩).descGet f)
      with heq | ⟨hblank, heq, hsome⟩
    · left; rw [heq]
    · right
      refine ⟨hblank, ?_, hsome⟩
      rw [heq]
  · left
    have : updateRec ident (tbl.get ⟨i, h⟩) = tbl.get ⟨i, h⟩ := by
      unfold updateRec; rw [if_neg huid]
    rw [this]
    simp only [Option.map_some']

/-- A stored odor row with a non-blank name, for the C2 witness. -/
def exRec2 : OdorRec :=
  { unified_odor_id := "CID:9", slug_first := "d", stimulus_first := "s",
    name := some "kept", cid := none, cas := none, smiles := none }

/-- A later identity carrying a different name for the same key. -/
def exIdent2 : Identity :=
  { unified_odor_id := "CID:9", slug := "d", stimulus := "s",
    name := some "other", cid := some "9", cas := none, smiles := none }

/-- C2 witness at a concrete store and upsert. -/
theorem C2_witness :
    ((upsert_odor [exRec2] exIdent2)[0]?.map (fun r => r.descGet .name) =
        some (([exRec2].get ⟨0, by decide⟩).descGet .name))
    ∨ ((([exRec2].get ⟨0, by decide⟩).descGet .name = none
          ∨ sqliteTrim ((([exRec2].get ⟨0, by decide⟩).descGet .name).getD "")
              = "")
        ∧ (upsert_odor [exRec2] exIdent2)[0]?.map (fun r => r.descGet .name) =
            some (exIdent2.descGet .name)
        ∧ (exIdent2.descGet .name).isSome = true) :=
  C2_fill_only [exRec2] exIdent2 0 .name (by decide)

/-! ## C3 — numeric-versus-text value typing of facts -/

/-- C3 counterexample to the claim as stated: the raw value `"inf"` parses
(via Python `float`) to an infinity, not a finite number, yet
`_insert_fact` stores it numerically (it only rejects NaN), not as trimmed
text as the claim requires. -/
theorem C3_counterexample :
    insertFactValue (Cell.str "inf") = some (none, some (PyFloat.inf true))
    ∧ parseFloat "inf" = some (PyFloat.inf true)
    ∧ insertFactValue (Cell.str "inf") ≠ some (some "inf", none) := by
  exact ⟨by decide, by decide, by decide⟩

/-- C3 (amended). A raw value yields no stored fact exactly when it is
None, float NaN, or a string that strips to empty; a raw number (int or
float, NaN excluded) is stored numerically; and a non-empty stripped
string is stored numerically exactly when Python `float` parses it to a
non-NaN value (finite or infinite), otherwise as its stripped text. -/
theorem C3_value_typing :
    insertFactValue Cell.null = none
    ∧ insertFactValue (Cell.num PyFloat.nan) = none
    ∧ (∀ x : PyFloat, x ≠ PyFloat.nan →
        insertFactValue (Cell.num x) = some (none, some x))
    ∧ (∀ s : String, pyStrip s = "" → insertFactValue (Cell.str s) = none)
    ∧ (∀ s : String, pyStrip s ≠ "" →
        insertFactValue (Cell.str s) =
          match parseFloat (pyStrip s) with
          | some PyFloat.nan => some (some (pyStrip s), none)
          | some x => some (none, some x)
          | none => some (some (pyStrip s), none)) := by
  refine ⟨rfl, rfl, ?_, ?_, ?_⟩
  · intro x hx
    cases x with
    | fin q => rfl
    | inf b => rfl
    | nan => exact absurd rfl hx
  · intro s h
    simp [insertFactValue, safe_str, h]
  · intro s h
    simp only [insertFactValue, safe_str, if_neg h]

/-- C3 witness: a finite raw number is stored numerically. -/
theorem C3_witness :
    insertFactValue (Cell.num (PyFloat.fin 3)) =
      some (none, some (PyFloat.fin 3)) :=
  C3_value_typing.2.2.1 (PyFloat.fin 3) (by decide)

/-! ## C4 — exactly one of value_text / value_num -/

/-- Exactly-one-non-null, as a boolean predicate on a stored fact. -/
def exclB (f : Fact) : Bool := f.value_text.isSome != f.value_num.isSome

/-- The only outputs of the value-typing logic: nothing, text-only, or
number-only. -/
theorem insertFactValue_shape (v : Cell) :
    insertFactValue v = none
    ∨ (∃ t, insertFactValue v = some (some t, none))
    ∨ (∃ x, insertFactValue v = some (none, some x)) := by
  cases v with
  | null => exact Or.inl rfl
  | num x =>
      cases x with
      | nan => exact Or.inl rfl
      | fin q => exact Or.inr (Or.inr ⟨_, rfl⟩)
      | inf b => exact Or.inr (Or.inr ⟨_, rfl⟩)
  | str s =>
      cases hsf : safe_str (.str s) with
      | none => exact Or.inl (by simp [insertFactValue, hsf])
      | some text =>
          cases hp : parseFloat text with
          | none =>
              exact Or.inr (Or.inl ⟨text, by simp [insertFactValue, hsf, hp]⟩)
          | some x =>
              cases x with
              | nan =>
                  exact Or.inr (Or.inl ⟨text, by
                    simp [insertFactValue, hsf, hp]⟩)
              | fin q =>
                  exact Or.inr (Or.inr ⟨PyFloat.fin q, by
                    simp [insertFactValue, hsf, hp]⟩)
              | inf b =>
                  exact Or.inr (Or.inr ⟨PyFloat.inf b, by
                    simp [insertFactValue, hsf, hp]⟩)

/-- Every `(value_text, value_num)` pair actually produced by
`_insert_fact` has exactly one non-null component. -/
theorem insertFactValue_excl (v : Cell) (tn : Option String × Option PyFloat)
    (h : insertFactValue v = some tn) : (tn.1.isSome != tn.2.isSome) = true := by
  rcases insertFactValue_shape v with h0 | ⟨t, h1⟩ | ⟨x, h1⟩
  · rw [h0] at h; cases h
  · rw [h1] at h
    obtain rfl := Option.some.inj h
    rfl
  · rw [h1] at h
    obtain rfl := Option.some.inj h
    rfl

theorem insert_fact_all_excl (st : Store) (ident : Identity)
    (slug fname col : String) (v : Cell) (h : st.facts.all exclB = true) :
    (insert_fact st ident slug fname col v).facts.all exclB = true := by
  unfold insert_fact
  cases hv : insertFactValue v with
  | none => exact h
  | some tn =>
      simp only [List.all_append, h, Bool.true_and, List.all_cons,
        List.all_nil, Bool.and_true]
      exact insertFactValue_excl v tn hv

theorem insert_row_all_excl (st : Store) (ident : Identity)
    (slug fname : String) (row : Option Row) (skipCols : List String)
    (h : st.facts.all exclB = true) :
    (insert_row_as_facts st ident slug fname row skipCols).facts.all exclB
      = true := by
  unfold insert_row_as_facts
  cases row with
  | none => exact h
  | some r =>
      refine foldl_preserve _ (fun s => s.facts.all exclB = true) ?_ r st h
      intro s p hs
      dsimp only
      split
      · exact hs
      · exact insert_fact_all_excl s ident slug fname p.1 p.2 hs

theorem insertMeasurementFacts_all_excl (ident : Identity)
    (slug fname stim_col : String) (cols : List String) (row : Row)
    (s : Store) (h : s.facts.all exclB = true) :
    (insertMeasurementFacts ident slug fname stim_col cols row s).facts.all
      exclB = true := by
  unfold insertMeasurementFacts
  refine foldl_preserve _ (fun s => s.facts.all exclB = true) ?_ cols s h
  intro s c hs
  dsimp only
  split
  · exact hs
  · exact insert_fact_all_excl s ident slug fname c (rowCell row c) hs

theorem resolveAndEnrich_all_excl (slug : String)
    (stim_df mol_df : Option Table) (stim_col : String) (st : RunState)
    (sv : String) (h : st.store.facts.all exclB = true) :
    (resolveAndEnrich slug stim_df mol_df stim_col st sv).2.store.facts.all
      exclB = true := by
  unfold resolveAndEnrich
  exact insert_row_all_excl _ _ slug "molecules.csv" _ _
    (insert_row_all_excl _ _ slug "stimuli.csv" _ _ h)

theorem processRow_all_excl (slug : String) (stim_df mol_df : Option Table)
    (stim_col fname : String) (cols : List String) (st : RunState) (row : Row)
    (h : st.store.facts.all exclB = true) :
    (processRow slug stim_df mol_df stim_col fname cols st row).store.facts.all
      exclB = true := by
  unfold processRow
  cases hs : safe_str (rowCell row stim_col) with
  | none => exact h
  | some sv =>
      cases hl : lookupCache st.cache sv with
      | some ident =>
          simp only [hl]
          exact insertMeasurementFacts_all_excl ident slug fname stim_col
            cols row st.store h
      | none =>
          simp only [hl]
          exact insertMeasurementFacts_all_excl _ slug fname stim_col cols row
            _ (resolveAndEnrich_all_excl slug stim_df mol_df stim_col st sv h)

theorem processFile_all_excl (slug : String) (stim_df mol_df : Option Table)
    (st : RunState) (f : String × Option Table)
    (h : st.store.facts.all exclB = true) :
    (processFile slug stim_df mol_df st f).store.facts.all exclB = true := by
  unfold processFile
  split
  · cases f.2 with
    | none => exact h
    | some t =>
        dsimp only
        split
        · exact h
        · cases find_stimulus_column t with
          | none => exact h
          | some stim_col =>
              exact foldl_preserve _
                (fun s : RunState => s.store.facts.all exclB = true)
                (fun s r hs =>
                  processRow_all_excl slug stim_df mol_df stim_col f.1 t.cols
                    s r hs)
                _ st h
  · exact h

/-- C4. Exactly one of `value_text`/`value_num` is non-null in every fact
row an ingestion run leaves in the store (given every pre-existing fact
satisfies it, as the empty store does); and a raw value whose typing is
excluded is not written at all. -/
theorem C4_fact_exclusive (store : Store) (ds : Dataset)
    (h : store.facts.all exclB = true) :
    (ingest_dataset store ds).facts.all exclB = true
    ∧ ∀ (st : Store) (ident : Identity) (slug fname col : String) (v : Cell),
        insertFactValue v = none →
        insert_fact st ident slug fname col v = st := by
  constructor
  · unfold ingest_dataset
    split
    · exact h
    · exact foldl_preserve _
        (fun s : RunState => s.store.facts.all exclB = true)
        (fun s f hs => processFile_all_excl ds.slug _ _ s f hs)
        _ { store := store, cache := [] } h
  · intro st ident slug fname col v hv
    unfold insert_fact
    rw [hv]

/-- A minimal concrete dataset for the C4 witness. -/
def exDs4 : Dataset :=
  { slug := "d4", stimuli := none, molecules := none,
    files := [("behavior.csv", some
      { cols := ["Stimulus", "X"],
        rows := [[("Stimulus", Cell.str "s1"), ("X", Cell.str "3.5")]] })] }

/-- C4 witness: ingesting a concrete dataset into the empty store leaves
only facts with exactly one non-null value component. -/
theorem C4_witness :
    (ingest_dataset emptyStore exDs4).facts.all exclB = true :=
  (C4_fact_exclusive emptyStore exDs4 rfl).1

/-! ## C5 — the 5000-row gate skips the whole dataset -/

/-- C5. When the total row count across behavior*.csv files exceeds the
5000-row threshold, ingestion leaves the store completely unchanged: no
facts and no odor rows are produced. -/
theorem C5_row_gate (store : Store) (ds : Dataset)
    (h : count_behavior_rows ds > MAX_ROWS_PER_DATASET) :
    ingest_dataset store ds = store := by
  unfold ingest_dataset
  rw [if_pos h]

/-- A dataset whose single behavior file has 5001 rows. -/
def exDs5 : Dataset :=
  { slug := "big", stimuli := none, molecules := none,
    files := [("behavior.csv", some
      { cols := ["Stimulus"], rows := List.replicate 5001 [] })] }

/-- The behavior-row count of a dataset with one readable behavior file. -/
theorem count_single_file (sl : String) (stim mo : Option (Option Table))
    (name : String) (t : Table) (h : isBehaviorCsv name = true) :
    count_behavior_rows
      { slug := sl, stimuli := stim, molecules := mo,
        files := [(name, some t)] } = t.rows.length := by
  unfold count_behavior_rows
  rw [List.foldl_cons, List.foldl_nil]
  dsimp only
  simp only [h, if_true, Nat.zero_add]

/-- C5 witness: the oversized dataset is skipped outright. -/
theorem C5_witness : ingest_dataset emptyStore exDs5 = emptyStore := by
  refine C5_row_gate emptyStore exDs5 ?_
  have hc : count_behavior_rows exDs5 = 5001 := by
    unfold exDs5
    rw [count_single_file "big" none none "behavior.csv"
      { cols := ["Stimulus"], rows := List.replicate 5001 [] } (by decide)]
    exact List.length_replicate 5001 []
  show MAX_ROWS_PER_DATASET < count_behavior_rows exDs5
  rw [hc]
  decide

/-! ## C6 — enrichment facts and the per-label cache -/

/-- The number of stimuli.csv/molecules.csv enrichment facts in a store. -/
def countEnrich (l : List Fact) : Nat :=
  (l.filter (fun f =>
    f.file == "stimuli.csv" || f.file == "molecules.csv")).length

theorem insert_fact_countEnrich (st : Store) (ident : Identity)
    (slug fname col : String) (v : Cell) (h1 : fname ≠ "stimuli.csv")
    (h2 : fname ≠ "molecules.csv") :
    countEnrich (insert_fact st ident slug fname col v).facts =
      countEnrich st.facts := by
  unfold insert_fact
  cases hv : insertFactValue v with
  | none => rfl
  | some tn =>
      unfold countEnrich
      rw [List.filter_append]
      have hnil : List.filter (fun f =>
          f.file == "stimuli.csv" || f.file == "molecules.csv")
          [{ unified_odor_id := ident.unified_odor_id, slug := slug,
             file := fname, column := col, value_text := tn.1,
             value_num := tn.2 }] = ([] : List Fact) := by
        simp [h1, h2]
      rw [hnil, List.append_nil]

theorem insertMeasurementFacts_countEnrich (ident : Identity)
    (slug fname stim_col : String) (cols : List String) (row : Row)
    (s : Store) (h1 : fname ≠ "stimuli.csv") (h2 : fname ≠ "molecules.csv") :
    countEnrich
        (insertMeasurementFacts ident slug fname stim_col cols row s).facts =
      countEnrich s.facts := by
  unfold insertMeasurementFacts
  refine foldl_preserve _
    (fun s2 : Store => countEnrich s2.facts = countEnrich s.facts) ?_ cols s
    rfl
  intro s2 c hs
  dsimp only
  split
  · exact hs
  · rw [insert_fact_countEnrich s2 ident slug fname c (rowCell row c) h1 h2]
    exact hs

/-- C6 (amended). Within one dataset run, the stimuli.csv/molecules.csv
enrichment write happens at most once per distinct raw stimulus label:
cached labels survive every row step, a processed row leaves its own label
cached, and a row whose label is already cached adds no enrichment facts at
all (its writes are tagged with the measurement file name, which is
neither `"stimuli.csv"` nor `"molecules.csv"`). The original at-most-once-
per-identity reading fails: see `C6_counterexample`, where two distinct
labels resolving to one CID enrich the same identity twice. -/
theorem C6_enrichment_once (slug : String) (stim_df mol_df : Option Table)
    (stim_col fname : String) (cols : List String) (st : RunState) (row : Row)
    (hf1 : fname ≠ "stimuli.csv") (hf2 : fname ≠ "molecules.csv") :
    (∀ k i, lookupCache st.cache k = some i →
        lookupCache
          (processRow slug stim_df mol_df stim_col fname cols st row).cache k
          = some i)
    ∧ (∀ v, safe_str (rowCell row stim_col) = some v →
        (lookupCache
          (processRow slug stim_df mol_df stim_col fname cols st row).cache
          v).isSome = true)
    ∧ (∀ v i, safe_str (rowCell row stim_col) = some v →
        lookupCache st.cache v = some i →
        countEnrich
            (processRow slug stim_df mol_df stim_col fname cols st
              row).store.facts
          = countEnrich st.store.facts) := by
  unfold processRow
  cases hs : safe_str (rowCell row stim_col) with
  | none =>
      refine ⟨fun k i hk => hk, ?_, ?_⟩
      · intro v hv; cases hv
      · intro v i hv; cases hv
  | some sv =>
      cases hl : lookupCache st.cache sv with
      | some ident =>
          simp only [hl]
          refine ⟨fun k i hk => hk, ?_, ?_⟩
          · intro v hv
            obtain rfl : sv = v := Option.some.inj hv
            rw [hl]; rfl
          · intro v i hv hvi
            exact insertMeasurementFacts_countEnrich ident slug fname stim_col
              cols row st.store hf1 hf2
      | none =>
          simp only [hl]
          unfold resolveAndEnrich
          refine ⟨?_, ?_, ?_⟩
          · intro k i hk
            have hne : (sv == k) = false := by
              by_cases hksv : sv = k
              · subst hksv; rw [hl] at hk; cases hk
              · simp [hksv]
            simp only [lookupCache, List.find?]
            rw [hne]
            exact hk
          · intro v hv
            obtain rfl : sv = v := Option.some.inj hv
            simp [lookupCache, List.find?]
          · intro v i hv hvi
            obtain rfl : sv = v := Option.some.inj hv
            rw [hl] at hvi
            cases hvi

/-- The dataset of the C6 counterexample: two distinct raw labels whose
stimulus rows share the CID 7410. -/
def exDs6 : Dataset :=
  { slug := "d6",
    stimuli := some (some
      { cols := ["Stimulus", "CID", "Color"],
        rows := [
          [("Stimulus", .str "a"), ("CID", .str "7410"),
            ("Color", .str "red")],
          [("Stimulus", .str "b"), ("CID", .str "7410"),
            ("Color", .str "red")]] }),
    molecules := none,
    files := [("behavior.csv", some
      { cols := ["Stimulus", "X"],
        rows := [
          [("Stimulus", .str "a"), ("X", .str "p")],
          [("Stimulus", .str "b"), ("X", .str "q")]] })] }

/-- C6 counterexample to the claim as stated: ingesting `exDs6` produces a
single unified identity (CID:7410) yet writes its stimuli.csv `Color`
enrichment fact twice — once per raw label — so the enrichment write is not
at-most-once per identity. -/
theorem C6_counterexample :
    (ingest_dataset emptyStore exDs6).odors.length = 1
    ∧ ((ingest_dataset emptyStore exDs6).facts.filter (fun f =>
        f.file == "stimuli.csv" && f.column == "Color"
          && f.unified_odor_id == "CID:7410")).length = 2 := by
  exact ⟨by decide, by decide⟩

/-- The cached identity of the C6 witness. -/
def exIdent6 : Identity :=
  { unified_odor_id := "CID:7410", slug := "d6", stimulus := "a",
    name := some "a", cid := some "7410", cas := none, smiles := none }

def exSt6 : RunState := { store := emptyStore, cache := [("a", exIdent6)] }

def exRow6 : Row := [("Stimulus", Cell.str "a"), ("X", Cell.str "p")]

/-- C6 witness: a row whose label is already cached adds no enrichment
facts. -/
theorem C6_witness :
    countEnrich (processRow "d6" none none "Stimulus" "behavior.csv"
        ["Stimulus", "X"] exSt6 exRow6).store.facts =
      countEnrich exSt6.store.facts :=
  (C6_enrichment_once "d6" none none "Stimulus" "behavior.csv"
    ["Stimulus", "X"] exSt6 exRow6 (by decide) (by decide)).2.2 "a" exIdent6
    (by decide) (by decide)

/-! ## C7 — descriptor search -/

/-- Case-insensitive-after-lowering substring containment: `t` occurs
contiguously inside `s`. The spec-side reading of "contains as a
substring". -/
def containsSub (t s : List Char) : Bool := s.tails.any (fun u => t.isPrefixOf u)

/-- The search text holds no SQLite LIKE wildcard. -/
def wildcardFree (s : String) : Bool :=
  s.data.all (fun c => !(c == '%') && !(c == '_'))

theorem likeStar_eq_any (f : List Char → Bool) (s : List Char) :
    likeStar f s = s.tails.any f := by
  induction s with
  | nil => simp [likeStar, List.tails]
  | cons c s ih => simp [likeStar, List.tails_cons, ih]

theorem likeMatch_trailing (s : List Char) : likeMatch ['%'] s = true := by
  induction s with
  | nil => rfl
  | cons c s ih =>
      show (likeMatch [] (c :: s) || likeStar (likeMatch []) s) = true
      rw [show likeStar (likeMatch []) s = likeMatch ['%'] s from rfl, ih]
      simp

/-- A wildcard-free pattern followed by `%` matches exactly the strings it
prefixes. -/
theorem likeMatch_lit (t : List Char)
    (ht : ∀ c ∈ t, (c = '%' → False) ∧ (c = '_' → False)) :
    ∀ s, likeMatch (t ++ ['%']) s = t.isPrefixOf s := by
  induction t with
  | nil =>
      intro s
      rw [List.nil_append, likeMatch_trailing s]
      cases s <;> rfl
  | cons c t ih =>
      intro s
      have hc := ht c (by simp)
      have hcp : (c == '%') = false := by
        simp only [beq_eq_false_iff_ne, ne_eq]
        exact fun h => hc.1 h
      have hcu : (c == '_') = false := by
        simp only [beq_eq_false_iff_ne, ne_eq]
        exact fun h => hc.2 h
      have hrest : ∀ x ∈ t, (x = '%' → False) ∧ (x = '_' → False) :=
        fun x hx => ht x (by simp [hx])
      cases s with
      | nil => simp [likeMatch, hcp, List.isPrefixOf]
      | cons d s2 =>
          simp [likeMatch, hcp, hcu, ih hrest s2, List.isPrefixOf]

/-- `%t%` with a wildcard-free `t` matches exactly the strings containing
`t` as a substring. -/
theorem likeMatch_sub (t : List Char)
    (ht : ∀ c ∈ t, (c = '%' → False) ∧ (c = '_' → False)) (s : List Char) :
    likeMatch ('%' :: (t ++ ['%'])) s = containsSub t s := by
  have h1 : likeMatch ('%' :: (t ++ ['%'])) s =
      likeStar (likeMatch (t ++ ['%'])) s := by
    simp [likeMatch]
  rw [h1, likeStar_eq_any]
  unfold containsSub
  exact congrArg (fun f => s.tails.any f) (funext fun u => likeMatch_lit t ht u)

theorem sqliteLower_data (s : String) :
    (sqliteLower s).data = s.data.map asciiLowerChar := rfl

theorem charOfNat_toNat (n : Nat) (h : n.isValidChar) :
    (Char.ofNat n).toNat = n := by
  simp [Char.ofNat, Char.ofNatAux, dif_pos h, Char.toNat, UInt32.toNat]

theorem containsSub_nil_false (c : Char) (ts : List Char) :
    containsSub (c :: ts) [] = false := rfl

/-- ASCII lowering never produces a LIKE wildcard from a non-wildcard. -/
theorem asciiLowerChar_wildfree (c : Char) (h1 : c = '%' → False)
    (h2 : c = '_' → False) :
    (asciiLowerChar c = '%' → False) ∧ (asciiLowerChar c = '_' → False) := by
  unfold asciiLowerChar
  split
  case isTrue h =>
    have hv : (c.toNat + 32).isValidChar := Or.inl (by omega)
    have ht : (Char.ofNat (c.toNat + 32)).toNat = c.toNat + 32 :=
      charOfNat_toNat _ hv
    constructor
    · intro he
      have := congrArg Char.toNat he
      rw [ht] at this
      have h37 : ('%').toNat = 37 := rfl
      rw [h37] at this
      omega
    · intro he
      have := congrArg Char.toNat he
      rw [ht] at this
      have h95 : ('_').toNat = 95 := rfl
      rw [h95] at this
      omega
  case isFalse h => exact ⟨h1, h2⟩

theorem empty_data {s : String} (h : s ≠ "") : s.data ≠ [] := by
  intro hd
  exact h (String.ext (by rw [hd]))

/-- The WHERE clause of `descriptor_search`, characterised: a fact
qualifies exactly when its column contains "descriptor" after lowering,
its *text* value exists and contains the stripped search text
case-insensitively, and it lies in the requested dataset. Requires the
stripped search text to be non-empty and wildcard-free. -/
theorem factMatches_iff (text : String) (dataset : Option String) (f : Fact)
    (h1 : pyStrip text ≠ "") (h2 : wildcardFree (pyStrip text) = true) :
    factMatches text dataset f = true ↔
      (containsSub "descriptor".data (sqliteLower f.column).data = true
       ∧ (∃ v, f.value_text = some v
           ∧ containsSub (sqliteLower (pyStrip text)).data
               (sqliteLower v).data = true)
       ∧ datasetOk dataset f = true) := by
  have hdesc : ∀ c ∈ "descriptor".data, (c = '%' → False) ∧ (c = '_' → False) := by
    decide
  have hpat : ("%descriptor%".data : List Char) =
      '%' :: ("descriptor".data ++ ['%']) := by decide
  have htext : ∀ c ∈ (sqliteLower (pyStrip text)).data,
      (c = '%' → False) ∧ (c = '_' → False) := by
    rw [sqliteLower_data]
    intro c hc
    obtain ⟨c0, hc0, rfl⟩ := List.mem_map.mp hc
    have := List.all_eq_true.mp h2 c0 hc0
    simp only [Bool.and_eq_true, Bool.not_eq_true', beq_eq_false_iff_ne,
      ne_eq] at this
    exact asciiLowerChar_wildfree c0 this.1 this.2
  have hqpat : (sqliteLower ("%" ++ pyStrip text ++ "%")).data =
      '%' :: ((sqliteLower (pyStrip text)).data ++ ['%']) := by
    rw [sqliteLower_data, sqliteLower_data]
    have : ("%" ++ pyStrip text ++ "%").data =
        '%' :: ((pyStrip text).data ++ ['%']) := by
      simp [String.data_append]
    rw [this]
    simp [asciiLowerChar]
  have htne : (sqliteLower (pyStrip text)).data ≠ [] := by
    rw [sqliteLower_data]
    intro hm
    exact empty_data h1 (List.map_eq_nil_iff.mp hm)
  unfold factMatches
  rw [hpat, hqpat, likeMatch_sub _ hdesc, likeMatch_sub _ htext]
  simp only [Bool.and_eq_true]
  constructor
  · rintro ⟨⟨hcol, hval⟩, hds⟩
    refine ⟨hcol, ?_, hds⟩
    cases hv : f.value_text with
    | none =>
        exfalso
        rw [hv] at hval
        simp only [Option.getD_none] at hval
        obtain ⟨c, ts, hts⟩ := List.exists_cons_of_ne_nil htne
        rw [show (sqliteLower "").data = ([] : List Char) from rfl, hts,
          containsSub_nil_false] at hval
        cases hval
    | some v =>
        rw [hv] at hval
        simp only [Option.getD_some] at hval
        exact ⟨v, rfl, hval⟩
  · rintro ⟨hcol, ⟨v, hv, hsub⟩, hds⟩
    refine ⟨⟨hcol, ?_⟩, hds⟩
    rw [hv]
    exact hsub

/-- C7 (amended). Provided the stripped search text is non-empty and
contains no LIKE wildcard, `descriptor_search` returns exactly the
distinct odors having at least one fact whose column name contains
"descriptor" (case-insensitively) and whose *text* value contains the
stripped search text (case-insensitively), optionally restricted to one
dataset slug; numeric-valued facts never qualify. The original claim
quantified over every search text; see `C7_counterexample`: with an empty
search text the pattern `%%` also matches facts whose text value is NULL,
so a purely numeric descriptor fact does return its identity. -/
theorem C7_descriptor_search (store : Store) (text : String)
    (dataset : Option String) (h1 : pyStrip text ≠ "")
    (h2 : wildcardFree (pyStrip text) = true) :
    (descriptor_search store text dataset).Nodup
    ∧ ∀ o, o ∈ descriptor_search store text dataset ↔
        (o ∈ store.odors ∧ ∃ f ∈ store.facts,
          f.unified_odor_id = o.unified_odor_id
          ∧ containsSub "descriptor".data (sqliteLower f.column).data = true
          ∧ (∃ v, f.value_text = some v
              ∧ containsSub (sqliteLower (pyStrip text)).data
                  (sqliteLower v).data = true)
          ∧ datasetOk dataset f = true) := by
  constructor
  · exact List.nodup_dedup _
  · intro o
    unfold descriptor_search
    rw [List.mem_dedup, List.mem_filter]
    constructor
    · rintro ⟨ho, hany⟩
      obtain ⟨f, hf, hmatch⟩ := List.any_eq_true.mp hany
      rw [Bool.and_eq_true] at hmatch
      obtain ⟨huid, hm⟩ := hmatch
      refine ⟨ho, f, hf, beq_iff_eq.mp huid, ?_⟩
      exact (factMatches_iff text dataset f h1 h2).mp hm
    · rintro ⟨ho, f, hf, huid, hrest⟩
      refine ⟨ho, List.any_eq_true.mpr ⟨f, hf, ?_⟩⟩
      rw [Bool.and_eq_true]
      exact ⟨beq_iff_eq.mpr huid,
        (factMatches_iff text dataset f h1 h2).mpr hrest⟩

/-- The store of the C7 counterexample: one odor whose only
descriptor-columned fact is numeric (its text value is NULL). -/
def exOdor7 : OdorRec :=
  { unified_odor_id := "CID:1", slug_first := "d", stimulus_first := "s",
    name := some "n", cid := some "1", cas := none, smiles := none }

def exFact7 : Fact :=
  { unified_odor_id := "CID:1", slug := "d", file := "behavior.csv",
    column := "descriptor_strength", value_text := none,
    value_num := some (.fin 5) }

def exStore7 : Store := { odors := [exOdor7], facts := [exFact7] }

/-- C7 counterexample to the claim as stated: searching the empty text
returns the odor although its only descriptor-like fact is numeric (no
fact has a text value at all). -/
theorem C7_counterexample :
    descriptor_search exStore7 "" none = [exOdor7]
    ∧ exStore7.facts.all (fun f => f.value_text == none) = true := by
  exact ⟨by decide, by decide⟩

/-- A store with a genuine textual descriptor fact, for the C7 witness. -/
def exFact7b : Fact :=
  { unified_odor_id := "CID:1", slug := "d", file := "behavior.csv",
    column := "Descriptors", value_text := some "Citrus", value_num := none }

def exStore7b : Store := { odors := [exOdor7], facts := [exFact7b] }

/-- C7 witness: a case-insensitive substring hit in a descriptor column is
returned. -/
theorem C7_witness : exOdor7 ∈ descriptor_search exStore7b "cit" none :=
  ((C7_descriptor_search exStore7b "cit" none (by decide) (by decide)).2
    exOdor7).mpr
    ⟨by decide, exFact7b, by decide, by decide, by decide,
      ⟨"Citrus", by decide, by decide⟩, by decide⟩

/-! ## C8 — the pivot aggregation rule -/

theorem filterMap_numOf_length (vals : List PVal)
    (h : ∀ v ∈ vals, isNumV v = true) :
    (vals.filterMap numOf).length = vals.length := by
  induction vals with
  | nil => rfl
  | cons v l ih =>
      have hv := h v (by simp)
      cases v with
      | num q =>
          simp only [List.filterMap_cons, numOf, List.length_cons]
          rw [ih (fun x hx => h x (by simp [hx]))]
      | text s => simp [isNumV] at hv
      | null => simp [isNumV] at hv

theorem filterMap_numOf_lt (vals : List PVal) (v : PVal) (hv : v ∈ vals)
    (hnv : isNumV v = false) :
    (vals.filterMap numOf).length < vals.length := by
  induction vals with
  | nil => cases hv
  | cons a l ih =>
      rcases List.mem_cons.mp hv with rfl | hm
      · have hn : numOf v = none := by
          cases v with
          | num q => simp [isNumV] at hnv
          | text s => rfl
          | null => rfl
        simp only [List.filterMap_cons, hn, List.length_cons]
        exact Nat.lt_succ_of_le (List.length_filterMap_le numOf l)
      · cases hn : numOf a with
        | none =>
            simp only [List.filterMap_cons, hn, List.length_cons]
            exact Nat.lt_succ_of_lt (ih hm)
        | some q =>
            simp only [List.filterMap_cons, hn, List.length_cons]
            exact Nat.succ_lt_succ (ih hm)

/-- C8. For a non-empty group of fact values sharing one
(dataset, file, column) key, the wide-view aggregation is the arithmetic
mean of the values when every value is numeric, and otherwise the
sorted, de-duplicated, semicolon-joined stringification of the non-null
values. -/
theorem C8_pivot_aggregate (vals : List PVal) (h : vals ≠ []) :
    ((∀ v ∈ vals, isNumV v = true) →
        aggregate vals =
          Sum.inl ((vals.filterMap numOf).sum / (vals.length : ℚ)))
    ∧ ((∃ v ∈ vals, isNumV v = false) →
        aggregate vals =
          Sum.inr ("; ".intercalate (sortLe strLeB
            ((vals.filter (fun v => v ≠ PVal.null)).map pvalStr).dedup))) := by
  constructor
  · intro hall
    have hlen := filterMap_numOf_length vals hall
    have hne : vals.filterMap numOf ≠ [] := by
      intro hnil
      apply h
      have := hlen
      rw [hnil] at this
      exact List.eq_nil_of_length_eq_zero this.symm
    unfold aggregate
    rw [if_pos ⟨hne, hlen⟩, hlen]
  · rintro ⟨v, hv, hnv⟩
    have hlt := filterMap_numOf_lt vals v hv hnv
    unfold aggregate
    rw [if_neg]
    intro hc
    rw [hc.2] at hlt
    exact Nat.lt_irrefl _ hlt

/-- C8 witness: an all-numeric group aggregates to its mean. -/
theorem C8_witness :
    aggregate [PVal.num 1, PVal.num 2] =
      Sum.inl ((([PVal.num 1, PVal.num 2] : List PVal).filterMap numOf).sum /
        ((([PVal.num 1, PVal.num 2] : List PVal).length : ℚ))) :=
  (C8_pivot_aggregate [PVal.num 1, PVal.num 2] (by decide)).1 (by decide)

/-! ## C9 — resolved identities always carry a name -/

def nameSomeB (r : OdorRec) : Bool := r.name.isSome

theorem applyFill_isSome (v : Option String) (c : String) :
    ((applyFill v (some c)).isSome) = true := by
  cases v with
  | none => rfl
  | some val =>
      show ((if sqliteTrim c = "" then some val else some c).isSome) = true
      split <;> rfl

theorem updateRec_nameSome (ident : Identity) (r : OdorRec)
    (h : nameSomeB r = true) : nameSomeB (updateRec ident r) = true := by
  unfold updateRec
  split
  · unfold nameSomeB at h ⊢
    cases hn : r.name with
    | none => rw [hn] at h; cases h
    | some c => simp only [hn]; exact applyFill_isSome ident.name c
  · exact h

theorem upsert_odor_nameSome (tbl : List OdorRec) (ident : Identity)
    (hi : ident.name.isSome = true) (h : tbl.all nameSomeB = true) :
    (upsert_odor tbl ident).all nameSomeB = true := by
  unfold upsert_odor
  split
  · rw [List.all_map]
    exact List.all_eq_true.mpr (fun r hr =>
      updateRec_nameSome ident r (List.all_eq_true.mp h r hr))
  · rw [List.all_map, List.all_append, Bool.and_eq_true]
    refine ⟨?_, ?_⟩
    · exact List.all_eq_true.mpr (fun r hr =>
        updateRec_nameSome ident r (List.all_eq_true.mp h r hr))
    · simp only [List.all_cons, List.all_nil, Bool.and_true, Function.comp]
      exact updateRec_nameSome ident (identRec ident) hi

theorem insert_fact_odors (st : Store) (ident : Identity)
    (slug fname col : String) (v : Cell) :
    (insert_fact st ident slug fname col v).odors = st.odors := by
  unfold insert_fact
  cases insertFactValue v <;> rfl

theorem insert_row_odors (st : Store) (ident : Identity)
    (slug fname : String) (row : Option Row) (skipCols : List String) :
    (insert_row_as_facts st ident slug fname row skipCols).odors =
      st.odors := by
  unfold insert_row_as_facts
  cases row with
  | none => rfl
  | some r =>
      refine foldl_preserve _ (fun s => s.odors = st.odors) ?_ r st rfl
      intro s p hs
      dsimp only
      split
      · exact hs
      · rw [insert_fact_odors]; exact hs

theorem insertMeasurementFacts_odors (ident : Identity)
    (slug fname stim_col : String) (cols : List String) (row : Row)
    (s : Store) :
    (insertMeasurementFacts ident slug fname stim_col cols row s).odors =
      s.odors := by
  unfold insertMeasurementFacts
  refine foldl_preserve _ (fun s2 : Store => s2.odors = s.odors) ?_ cols s rfl
  intro s2 c hs
  dsimp only
  split
  · exact hs
  · rw [insert_fact_odors]; exact hs

theorem identity_name_eq (slug stim : String) (sr mr : Option Row) :
    (identity_from_rows slug stim sr mr).name =
      some (pyOrStr (resolveName sr mr) stim) := rfl

theorem resolveAndEnrich_nameSome (slug : String)
    (stim_df mol_df : Option Table) (stim_col : String) (st : RunState)
    (sv : String) (h : st.store.odors.all nameSomeB = true) :
    (resolveAndEnrich slug stim_df mol_df stim_col st sv).2.store.odors.all
      nameSomeB = true := by
  unfold resolveAndEnrich
  rw [insert_row_odors, insert_row_odors]
  exact upsert_odor_nameSome st.store.odors _ (by rw [identity_name_eq]; rfl) h

theorem processRow_nameSome (slug : String) (stim_df mol_df : Option Table)
    (stim_col fname : String) (cols : List String) (st : RunState) (row : Row)
    (h : st.store.odors.all nameSomeB = true) :
    (processRow slug stim_df mol_df stim_col fname cols st
        row).store.odors.all nameSomeB = true := by
  unfold processRow
  cases hs : safe_str (rowCell row stim_col) with
  | none => exact h
  | some sv =>
      cases hl : lookupCache st.cache sv with
      | some ident =>
          simp only [hl]
          rw [insertMeasurementFacts_odors]
          exact h
      | none =>
          simp only [hl]
          rw [insertMeasurementFacts_odors]
          exact resolveAndEnrich_nameSome slug stim_df mol_df stim_col st sv h

theorem processFile_nameSome (slug : String) (stim_df mol_df : Option Table)
    (st : RunState) (f : String × Option Table)
    (h : st.store.odors.all nameSomeB = true) :
    (processFile slug stim_df mol_df st f).store.odors.all nameSomeB
      = true := by
  unfold processFile
  split
  · cases f.2 with
    | none => exact h
    | some t =>
        dsimp only
        split
        · exact h
        · cases find_stimulus_column t with
          | none => exact h
          | some stim_col =>
              exact foldl_preserve _
                (fun s : RunState => s.store.odors.all nameSomeB = true)
                (fun s r hs =>
                  processRow_nameSome slug stim_df mol_df stim_col f.1 t.cols
                    s r hs)
                _ st h
  · exact h

/-- C9. A resolved identity's name is the first matched name candidate or,
when none matched, the raw stimulus label itself — in particular it is
never None — and every odor row an ingestion run leaves in the store has a
non-null name (given every pre-existing row does, as in the empty store). -/
theorem C9_name_never_null (slug stim : String) (sr mr : Option Row)
    (store : Store) (ds : Dataset)
    (h : store.odors.all nameSomeB = true) :
    ((identity_from_rows slug stim sr mr).name =
        some (pyOrStr (resolveName sr mr) stim))
    ∧ (ingest_dataset store ds).odors.all nameSomeB = true := by
  refine ⟨rfl, ?_⟩
  unfold ingest_dataset
  split
  · exact h
  · exact foldl_preserve _
      (fun s : RunState => s.store.odors.all nameSomeB = true)
      (fun s f hs => processFile_nameSome ds.slug _ _ s f hs)
      _ { store := store, cache := [] } h

/-- A dataset whose only stimulus label matches no name candidate, for the
C9 witness. -/
def exDs9 : Dataset :=
  { slug := "d9", stimuli := none, molecules := none,
    files := [("behavior.csv", some
      { cols := ["Stimulus", "Y"],
        rows := [[("Stimulus", Cell.str "lab"), ("Y", Cell.str "w")]] })] }

/-- C9 witness at a concrete resolution and ingestion run. -/
theorem C9_witness :
    ((identity_from_rows "d9" "lab" none none).name =
        some (pyOrStr (resolveName none none) "lab"))
    ∧ (ingest_dataset emptyStore exDs9).odors.all nameSomeB = true :=
  C9_name_never_null "d9" "lab" none none emptyStore exDs9 rfl

/-! ## C10 — rows with an unusable stimulus cell -/

/-- C10 (amended). A measurement row whose stimulus cell — after the
file-level `astype(str)` conversion — strips to the empty string is
skipped entirely: no identity is resolved or upserted, no fact is written,
the run state is untouched. The original claim also promised this for
None/NaN cells; see `C10_counterexample`: `astype(str)` turns those into
the literal strings `"None"`/`"nan"` first, so `_safe_str` does not reject
them and the row is ingested under that label. -/
theorem C10_blank_stimulus_skipped (slug : String)
    (stim_df mol_df : Option Table) (stim_col fname : String)
    (cols : List String) (st : RunState) (row : Row)
    (h : safe_str (rowCell row stim_col) = none) :
    processRow slug stim_df mol_df stim_col fname cols st row = st := by
  unfold processRow
  rw [h]

/-- The dataset of the C10 counterexample: its only behavior row has a NaN
stimulus cell. -/
def exDs10 : Dataset :=
  { slug := "d10", stimuli := none, molecules := none,
    files := [("behavior.csv", some
      { cols := ["Stimulus", "X"],
        rows := [[("Stimulus", Cell.num PyFloat.nan),
          ("X", Cell.str "hi")]] })] }

/-- C10 counterexample to the claim as stated: the NaN-stimulus row is NOT
skipped — it produces one odor row (labelled by the string "nan") and one
fact. -/
theorem C10_counterexample :
    (ingest_dataset emptyStore exDs10).odors.length = 1
    ∧ (ingest_dataset emptyStore exDs10).facts.length = 1
    ∧ (ingest_dataset emptyStore exDs10).odors.all
        (fun o => o.stimulus_first == "nan") = true := by
  exact ⟨by decide, by decide, by decide⟩

def exSt10 : RunState := { store := emptyStore, cache := [] }

def exRow10 : Row := [("Stimulus", Cell.str "   "), ("X", Cell.str "v")]

/-- C10 witness: a whitespace-only stimulus cell writes nothing. -/
theorem C10_witness :
    processRow "d10" none none "Stimulus" "behavior.csv" ["Stimulus", "X"]
      exSt10 exRow10 = exSt10 :=
  C10_blank_stimulus_skipped "d10" none none "Stimulus" "behavior.csv"
    ["Stimulus", "X"] exSt10 exRow10 (by decide)

end OdorDB
